import Mathlib

/-!
Verification development for the ndn-cxx hierarchical logging registry and
its companion utilities (digest state machine, transport base class).

The logging facility (util/logging, util/logger) is exercised by
tests/unit-tests/util/logging.t.cpp; the implementation files themselves are
not part of this source tree, so the model below is built from the design
specification and cross-checked against the expectations recorded in the
unit tests.
-/

namespace NdnCxx

/-- Modelled from the spec: `LogLevel` of util/logger.hpp (absent from the
tree).  Ordered set FATAL, ERROR, WARN, INFO, DEBUG, TRACE plus the two
sentinels NONE and ALL. -/
inductive LogLevel where
  | FATAL | NONE | ERROR | WARN | INFO | DEBUG | TRACE | ALL
deriving DecidableEq, Repr

/-- Modelled from the spec: the verbosity ordinal.  `NONE < ERROR < WARN <
INFO < DEBUG < TRACE < ALL`; FATAL is below every threshold value so that it
never enables anything on its own. -/
def ordinalOf : LogLevel → Int
  | .FATAL => -1
  | .NONE => 0
  | .ERROR => 1
  | .WARN => 2
  | .INFO => 3
  | .DEBUG => 4
  | .TRACE => 5
  | .ALL => 255

/-- Modelled from the spec: `isAtLeastAsVerbose(candidate, threshold)` is true
iff `candidate == FATAL` or `ordinalOf candidate ≤ ordinalOf threshold`. -/
def isAtLeastAsVerbose (candidate threshold : LogLevel) : Bool :=
  candidate = LogLevel.FATAL || ordinalOf candidate ≤ ordinalOf threshold

/-- The six levels at which a message can actually be logged
(NDN_LOG_TRACE .. NDN_LOG_FATAL); the sentinels NONE and ALL are
threshold-only values. -/
def isMessageLevel (l : LogLevel) : Bool :=
  l ≠ LogLevel.NONE && l ≠ LogLevel.ALL

/-- Modelled from the spec: the wire label of each level; WARN is printed as
`WARNING`, the others by their canonical names. -/
def levelLabel : LogLevel → String
  | .FATAL => "FATAL"
  | .NONE => "NONE"
  | .ERROR => "ERROR"
  | .WARN => "WARNING"
  | .INFO => "INFO"
  | .DEBUG => "DEBUG"
  | .TRACE => "TRACE"
  | .ALL => "ALL"

/-! ### String helpers

Kernel-reducible counterparts of the std::string operations the C++ code
relies on, phrased over the character list of a `String`. -/

def strIsPrefixOfB (p s : String) : Bool :=
  List.isPrefixOf p.data s.data

def strEndsWith (s suffixStr : String) : Bool :=
  List.isSuffixOf suffixStr.data s.data

def strLen (s : String) : Nat :=
  s.data.length

/-- Split a string at every occurrence of the character `c` (the behavior of
`boost::split` on a single-character separator: the empty string yields one
empty segment). -/
def splitCharAux (c : Char) : List Char → List Char → List (List Char)
  | [], acc => [acc.reverse]
  | x :: xs, acc =>
    if x = c then acc.reverse :: splitCharAux c xs []
    else splitCharAux c xs (x :: acc)

def splitChar (c : Char) (s : String) : List String :=
  (splitCharAux c s.data []).map String.mk

/-! ### Rule table -/

/-- Modelled from the spec: the RuleTable of util/logging (absent from the
tree), a finite map from normalized keys to levels, kept as an association
list whose keys are pairwise distinct. -/
abbrev RuleTable := List (String × LogLevel)

def nodupKeys (t : RuleTable) : Prop :=
  (t.map Prod.fst).Nodup

/-- Modelled from the spec: a key is a namespace key when it is the root `""`
or ends in `"."`; any other key is an exact key. -/
def isNamespaceKey (k : String) : Bool :=
  k = "" || strEndsWith k "."

/-- Modelled from the spec: entry key `e` is within or equal to the subtree of
`k`: for a namespace key, `e == k` or `e` starts with the literal string `k`;
an exact key defines no subtree and subsumes only itself. -/
def keySubsumes (k e : String) : Bool :=
  if isNamespaceKey k then e = k || strIsPrefixOfB k e
  else e = k

/-- Modelled from the spec: the upsert-with-subsumption algorithm of the
RuleTable (§4.3): remove every entry within or equal to the subtree of
`k`, then insert `k → lvl`. -/
def applyRule (t : RuleTable) (k : String) (lvl : LogLevel) : RuleTable :=
  (t.filter fun p => !(keySubsumes k p.1)) ++ [(k, lvl)]

/-- Modelled from the spec: whether a key matches a module name: a namespace
key matches every name that starts with it, an exact key only the identical
name. -/
def keyMatches (k m : String) : Bool :=
  if isNamespaceKey k then strIsPrefixOfB k m
  else k = m

/-- Modelled from the spec: the longest namespace key among the entries whose
key matches `m` (step 2 of §4.3 resolution); on the impossible tie the
earlier entry wins. -/
def longestNsMatch (t : RuleTable) (m : String) : Option (String × LogLevel) :=
  match t with
  | [] => none
  | p :: rest =>
    let restBest := longestNsMatch rest m
    if isNamespaceKey p.1 && strIsPrefixOfB p.1 m then
      match restBest with
      | none => some p
      | some q => if strLen p.1 < strLen q.1 then some q else some p
    else restBest

/-- Modelled from the spec: `resolve(moduleName)` (§4.3): an exact key equal
to the name wins; otherwise the longest matching namespace key; otherwise the
built-in default `NONE`. -/
def resolve (t : RuleTable) (m : String) : LogLevel :=
  match t.find? (fun p => !(isNamespaceKey p.1) && p.1 = m) with
  | some p => p.2
  | none =>
    match longestNsMatch t m with
    | some p => p.2
    | none => LogLevel.NONE

/-! ### Configuration string parsing -/

/-- Modelled from the spec: the single error condition reported for a
malformed configuration string (§4.2: a missing `=`, an unknown level name,
or an empty prefix segment all fail the whole parse with
`InvalidConfiguration`). -/
inductive ConfigError where
  | invalidConfiguration
deriving DecidableEq, Repr

/-- Modelled from the spec: case-sensitive parsing of a level name against
the canonical enumeration names; unknown names are rejected. -/
def parseLogLevel (s : String) : Option LogLevel :=
  if s = "NONE" then some .NONE
  else if s = "FATAL" then some .FATAL
  else if s = "ERROR" then some .ERROR
  else if s = "WARN" then some .WARN
  else if s = "INFO" then some .INFO
  else if s = "DEBUG" then some .DEBUG
  else if s = "TRACE" then some .TRACE
  else if s = "ALL" then some .ALL
  else none

/-- Modelled from the spec: key normalization of a prefix specifier: `"*"`
becomes the root `""`, a trailing `".*"` is replaced by a trailing `"."`,
anything else is an exact key. -/
def normalizeKey (p : String) : String :=
  if p = "*" then ""
  else if strEndsWith p ".*" then String.mk p.data.dropLast
  else p

/-- Modelled from the spec: parse one `prefix=LEVEL` assignment; fails when
the `=` is missing, the prefix segment is empty, or the level name is
unknown. -/
def parseAssign (s : String) : Except ConfigError (String × LogLevel) :=
  match splitChar '=' s with
  | [p, l] =>
    if p = "" then .error .invalidConfiguration
    else
      match parseLogLevel l with
      | some lvl => .ok (normalizeKey p, lvl)
      | none => .error .invalidConfiguration
  | _ => .error .invalidConfiguration

/-- Parse a list of assignment segments in order; the first malformed segment
fails the whole list and no partial result is produced. -/
def parseAssigns : List String → Except ConfigError (List (String × LogLevel))
  | [] => .ok []
  | s :: rest =>
    match parseAssign s with
    | .error e => .error e
    | .ok a =>
      match parseAssigns rest with
      | .error e => .error e
      | .ok as => .ok (a :: as)

/-- Modelled from the spec: parse a whole `assign (":" assign)*` rule string
into the ordered list of normalized assignments; the empty string means zero
assignments; any malformed assignment fails the whole parse and no partial
result is produced. -/
def parseConfig (config : String) : Except ConfigError (List (String × LogLevel)) :=
  if config = "" then .ok []
  else parseAssigns (splitChar ':' config)

/-! ### Registry -/

/-- Modelled from the spec: the Registry state of util/logging (absent from
the tree): the rule table plus the list of live loggers, each an
independently tracked (moduleName, cached effective level) pair. -/
structure RegistryState where
  rules : RuleTable
  loggers : List (String × LogLevel)
deriving DecidableEq

def initRegistry : RegistryState := ⟨[], []⟩

/-- Modelled from the spec: recompute and re-cache the threshold of every
currently live logger from the current rule table. -/
def recacheAll (st : RegistryState) : RegistryState :=
  { st with loggers := st.loggers.map fun l => (l.1, resolve st.rules l.1) }

/-- Modelled from the spec: `setLevel(prefixSpec, level)` — normalize the
key, upsert it into the rule table, then propagate to every live logger. -/
def setLevelPair (st : RegistryState) (p : String) (lvl : LogLevel) : RegistryState :=
  recacheAll { st with rules := applyRule st.rules (normalizeKey p) lvl }

/-- Modelled from the spec: `setLevel(configString)` — parse the whole string
first; on success apply every assignment in order and propagate; on failure
report `InvalidConfiguration` and leave the state untouched. -/
def setLevelStr (st : RegistryState) (config : String) :
    Except ConfigError RegistryState :=
  match parseConfig config with
  | .error e => .error e
  | .ok assigns =>
    .ok (recacheAll
      { st with rules := assigns.foldl (fun t p => applyRule t p.1 p.2) st.rules })

/-- Total wrapper of `setLevelStr`: on a parse failure the prior state is
returned unchanged (the caller observes the exception and no mutation). -/
def trySetLevel (st : RegistryState) (config : String) : RegistryState :=
  match setLevelStr st config with
  | .ok st2 => st2
  | .error _ => st

/-- Modelled from the spec: `resetLevels()` clears the rule table and
re-caches every live logger. -/
def resetLevels (st : RegistryState) : RegistryState :=
  recacheAll { st with rules := [] }

/-- Modelled from the spec: Logger creation registers with the Registry and
computes the initial cache from `resolve` against the current rules. -/
def addLogger (st : RegistryState) (name : String) : RegistryState :=
  { st with loggers := st.loggers ++ [(name, resolve st.rules name)] }

/-- Modelled from the spec: `removeLogger` unregisters one logger instance
(here by position); it never touches the rule table or the other loggers. -/
def removeLogger (st : RegistryState) (i : Nat) : RegistryState :=
  { st with loggers := st.loggers.eraseIdx i }

/-- Every live logger's cached effective threshold agrees with `resolve`
against the current rule table. -/
def cacheConsistent (st : RegistryState) : Prop :=
  ∀ l ∈ st.loggers, l.2 = resolve st.rules l.1

/-! ### Emission -/

/-- The six message levels in the order each `logFromModule…` helper of the
unit tests emits them. -/
def allMessageLevels : List LogLevel :=
  [.TRACE, .DEBUG, .INFO, .WARN, .ERROR, .FATAL]

/-- Modelled from the spec: the messages a fixed sequence of log calls emits
under a given cached threshold: exactly the calls whose level passes
`isAtLeastAsVerbose`. -/
def emittedUnder (threshold : LogLevel) (calls : List (LogLevel × String)) :
    List (LogLevel × String) :=
  calls.filter fun c => isAtLeastAsVerbose c.1 threshold

/-- The wire labels of the all-levels burst a module emits under the registry
state `st` (the shape every logging unit test asserts on). -/
def emittedLabels (st : RegistryState) (name : String) : List String :=
  (allMessageLevels.filter fun l => isAtLeastAsVerbose l (resolve st.rules name)).map
    levelLabel

/-- Decimal digit character. -/
def digitChar (n : Nat) : Char :=
  if n = 0 then '0' else if n = 1 then '1' else if n = 2 then '2'
  else if n = 3 then '3' else if n = 4 then '4' else if n = 5 then '5'
  else if n = 6 then '6' else if n = 7 then '7' else if n = 8 then '8'
  else '9'

/-- Decimal digits of a natural number, most significant first; fuel-driven
structural recursion so the kernel can evaluate it. -/
def natDigitsAux : Nat → Nat → List Char
  | 0, _ => []
  | fuel + 1, n =>
    if n < 10 then [digitChar n]
    else natDigitsAux fuel (n / 10) ++ [digitChar (n % 10)]

def natToStr (n : Nat) : String :=
  String.mk (natDigitsAux (n + 1) n)

/-- Zero-pad the microsecond field to six digits. -/
def padZeros6 (n : Nat) : String :=
  let s := natDigitsAux (n + 1) n
  String.mk (List.replicate (6 - s.length) '0' ++ s)

/-- Modelled from the spec: the `<seconds>.<microseconds>` timestamp rendered
from the injectable clock. -/
def formatTimestamp (sec usec : Nat) : String :=
  natToStr sec ++ "." ++ padZeros6 usec

/-- Modelled from the spec: the single line an enabled log call writes:
`"<seconds>.<microseconds> <LEVELNAME>: [<moduleName>] <message>\n"`. -/
def emitLine (sec usec : Nat) (lvl : LogLevel) (name msg : String) : String :=
  formatTimestamp sec usec ++ " " ++ levelLabel lvl ++ ": [" ++ name ++ "] " ++
    msg ++ "\n"

/-- Decidable equality on `Except`, needed to evaluate parse results. -/
def exceptDecEq {ε α : Type} [DecidableEq ε] [DecidableEq α] :
    (a b : Except ε α) → Decidable (a = b)
  | .error e, .error f =>
    if h : e = f then .isTrue (by rw [h])
    else .isFalse (by intro hh; injection hh; exact h ‹_›)
  | .error _, .ok _ => .isFalse (by intro hh; exact Except.noConfusion hh)
  | .ok _, .error _ => .isFalse (by intro hh; exact Except.noConfusion hh)
  | .ok a, .ok b =>
    if h : a = b then .isTrue (by rw [h])
    else .isFalse (by intro hh; injection hh; exact h ‹_›)

instance {ε α : Type} [DecidableEq ε] [DecidableEq α] : DecidableEq (Except ε α) :=
  exceptDecEq

/-! ### Digest state machine (src/util/digest.hpp)

`Digest<Hash>` / `Sha256` accumulate input bytes until finalized.  The
implementation file is absent from the tree; the model below follows the
contract documented in digest.hpp: `update` (and every `operator<<`
overload, all of which feed bytes through `update`) throws `Error` once the
digest has been finalized; `computeDigest` finalizes; `operator==` invokes
`computeDigest` on both operands; the inline `operator!=` returns
`!(*this == digest)`.  The hash primitive itself is the template parameter,
kept abstract here. -/

/-- Modelled from the spec: the observable state of a `Digest<Hash>` /
`Sha256` object: the accumulated input plus the `m_isInProcess` /
`m_isFinalized` flags of digest.hpp. -/
structure DigestState where
  input : List Nat
  isInProcess : Bool
  isFinalized : Bool
deriving DecidableEq

/-- A freshly constructed digest: empty, not in process, not finalized. -/
def digestInit : DigestState := ⟨[], false, false⟩

/-- `Digest::update` / `Sha256::update`: feed bytes; throws `Error` once the
digest has been finalized, otherwise appends and marks the digest in
process. -/
def digestUpdate (st : DigestState) (buf : List Nat) : Except Unit DigestState :=
  if st.isFinalized then .error ()
  else .ok { st with input := st.input ++ buf, isInProcess := true }

/-- `Digest::computeDigest()`: finalize and return the digest of everything
supplied so far (the input can no longer change after finalization, so the
returned value is stable across repeated calls). -/
def digestCompute (hash : List Nat → List Nat) (st : DigestState) :
    List Nat × DigestState :=
  (hash st.input, { st with isFinalized := true })

/-- `Digest::operator==` / `Sha256::operator==`: invoke `computeDigest` on
both operands — finalizing both — and compare the two digests; returns the
comparison together with both finalized operands. -/
def digestEq (hash : List Nat → List Nat) (a b : DigestState) :
    Bool × DigestState × DigestState :=
  let ra := digestCompute hash a
  let rb := digestCompute hash b
  (ra.1 = rb.1, ra.2, rb.2)

/-- `Digest::operator!=` / `Sha256::operator!=` (inline in digest.hpp):
`return !(*this == digest)`. -/
def digestNe (hash : List Nat → List Nat) (a b : DigestState) :
    Bool × DigestState × DigestState :=
  let r := digestEq hash a b
  (!r.1, r.2.1, r.2.2)

/-- `Digest::operator<<(Digest& src)`: computes `src`'s digest and feeds it
into this digest through `update`; throws `Error` when this digest is already
finalized. -/
def digestCombine (hash : List Nat → List Nat) (st src : DigestState) :
    Except Unit (DigestState × DigestState) :=
  let r := digestCompute hash src
  match digestUpdate st r.1 with
  | .ok st2 => .ok (st2, r.2)
  | .error e => .error e

/-! ### Transport base class (ndn-cpp/transport/transport.cpp)

The base-class methods are pure stubs: every operation except `close` throws
`std::logic_error("unimplemented")` and touches nothing; `close` returns
normally and has no effect.  The state type is abstract since the base class
itself neither reads nor writes any member. -/

namespace Transport

def connect {σ : Type} (st : σ) : Except String σ :=
  .error "unimplemented"

def send {σ : Type} (st : σ) (data : List Nat) : Except String σ :=
  .error "unimplemented"

def processEvents {σ : Type} (st : σ) : Except String σ :=
  .error "unimplemented"

def getIsConnected {σ : Type} (st : σ) : Except String (Bool × σ) :=
  .error "unimplemented"

def close {σ : Type} (st : σ) : σ :=
  st

end Transport

/-! ## Theorems -/

theorem configError_eq (e : ConfigError) : e = .invalidConfiguration := by
  cases e
  rfl

/-- C10: Every call to Transport::connect, Transport::send,
Transport::processEvents, or Transport::getIsConnected on the base class
unconditionally throws std::logic_error("unimplemented") without changing any
state, while Transport::close always returns normally and has no effect. -/
theorem transport_stub_behavior (σ : Type) (st : σ) (data : List Nat) :
    Transport.connect st = (Except.error "unimplemented" : Except String σ) ∧
    Transport.send st data = (Except.error "unimplemented" : Except String σ) ∧
    Transport.processEvents st = (Except.error "unimplemented" : Except String σ) ∧
    Transport.getIsConnected st =
      (Except.error "unimplemented" : Except String (Bool × σ)) ∧
    Transport.close st = st :=
  ⟨rfl, rfl, rfl, rfl, rfl⟩

/-- C9: For any two digest objects a and b, evaluating a == b (or a != b)
finalizes both operands, so every subsequent update or operator<< on either
object throws Error; and a != b always returns the negation of a == b. -/
theorem digest_compare_finalizes (hash : List Nat → List Nat)
    (a b src : DigestState) (buf : List Nat) :
    (digestEq hash a b).2.1.isFinalized = true ∧
    (digestEq hash a b).2.2.isFinalized = true ∧
    digestUpdate (digestEq hash a b).2.1 buf = .error () ∧
    digestUpdate (digestEq hash a b).2.2 buf = .error () ∧
    digestCombine hash (digestEq hash a b).2.1 src = .error () ∧
    digestCombine hash (digestEq hash a b).2.2 src = .error () ∧
    (digestNe hash a b).1 = !(digestEq hash a b).1 ∧
    (digestNe hash a b).2 = (digestEq hash a b).2 :=
  ⟨rfl, rfl, rfl, rfl, rfl, rfl, rfl, rfl⟩

/-- C2: For every rule table and every namespace key K (the root "" or a key
ending in "."), applying K → level removes exactly the existing entries equal
to K or starting with the literal string K and inserts K → level, while every
entry that is an ancestor of K or unrelated to K is left unchanged; in
particular upserting "fm." removes the exact entry "fm.FilterModule" but
keeps the root entry, and upserting the root removes every other entry. -/
theorem applyRule_subsumption_frame (t : RuleTable) (k : String) (lvl : LogLevel)
    (hk : isNamespaceKey k = true) :
    ((k, lvl) ∈ applyRule t k lvl) ∧
    (∀ p : String × LogLevel, p ∈ applyRule t k lvl ↔
      (p = (k, lvl) ∨ (p ∈ t ∧ ¬(p.1 = k ∨ strIsPrefixOfB k p.1 = true)))) ∧
    applyRule [("", .FATAL), ("fm.FilterModule", .DEBUG)] "fm." .INFO
      = [("", .FATAL), ("fm.", .INFO)] ∧
    applyRule [("", .WARN), ("Module2", .DEBUG)] "" .ERROR = [("", .ERROR)] := by
  refine ⟨?_, ?_, by decide, by decide⟩
  · simp [applyRule]
  · intro p
    simp only [applyRule, List.mem_append, List.mem_filter, List.mem_singleton,
      keySubsumes, hk, if_true, Bool.not_eq_true', Bool.or_eq_false_iff,
      decide_eq_false_iff_not]
    constructor
    · rintro (⟨hp, h1, h2⟩ | hp)
      · exact Or.inr ⟨hp, by push_neg; exact ⟨h1, fun hc => by simp [hc] at h2⟩⟩
      · exact Or.inl hp
    · rintro (hp | ⟨hp, hn⟩)
      · exact Or.inr hp
      · push_neg at hn
        exact Or.inl ⟨hp, hn.1, by simp [hn.2]⟩

theorem parseAssign_error_of_shape (s : String)
    (h : (splitChar '=' s).length ≠ 2 ∨
      ∃ pfx lname, splitChar '=' s = [pfx, lname] ∧ parseLogLevel lname = none) :
    parseAssign s = .error .invalidConfiguration := by
  unfold parseAssign
  split
  · rename_i p l heq
    rcases h with h | ⟨pfx, lname, heq2, hlv⟩
    · rw [heq] at h
      simp at h
    · rw [heq] at heq2
      injection heq2 with h1 h2
      injection h2 with h2 _
      subst h2
      split
      · rfl
      · rw [hlv]
  · rfl

theorem parseAssigns_error_of_mem (l : List String) (s : String) (hs : s ∈ l)
    (herr : parseAssign s = .error .invalidConfiguration) :
    parseAssigns l = .error .invalidConfiguration := by
  induction l with
  | nil => cases hs
  | cons x xs ih =>
    simp only [parseAssigns]
    rcases List.mem_cons.1 hs with rfl | hmem
    · rw [herr]
    · cases hx : parseAssign x with
      | error e => rw [configError_eq e]
      | ok a => rw [ih hmem]

theorem setLevelStr_error_of_parse (st : RegistryState) (config : String)
    (e : ConfigError) (h : parseConfig config = .error e) :
    setLevelStr st config = .error .invalidConfiguration ∧
    trySetLevel st config = st := by
  have h2 : setLevelStr st config = .error e := by
    simp only [setLevelStr, h]
  rw [configError_eq e] at h2
  exact ⟨h2, by simp only [trySetLevel, h2]⟩

/-- C3: For every malformed configuration string (unknown level name, or an
assignment missing "="), setLevel fails with the InvalidConfiguration
condition and is atomic: the rule table and every live Logger's cached
threshold are exactly as they were before the call, with no partial
application of any assignment in the string. -/
theorem setLevel_malformed_atomic (st : RegistryState) (config : String) :
    (∀ e, parseConfig config = .error e →
      setLevelStr st config = .error .invalidConfiguration ∧
      trySetLevel st config = st) ∧
    (config ≠ "" →
      ∀ s ∈ splitChar ':' config,
        ((splitChar '=' s).length ≠ 2 ∨
          ∃ pfx lname, splitChar '=' s = [pfx, lname] ∧ parseLogLevel lname = none) →
        setLevelStr st config = .error .invalidConfiguration ∧
        trySetLevel st config = st) ∧
    setLevelStr st "Module1=INVALID-LEVEL" = .error .invalidConfiguration ∧
    trySetLevel st "Module1=INVALID-LEVEL" = st ∧
    setLevelStr st "Module1-MISSING-EQUAL-SIGN" = .error .invalidConfiguration ∧
    trySetLevel st "Module1-MISSING-EQUAL-SIGN" = st := by
  have hc1 := setLevelStr_error_of_parse st "Module1=INVALID-LEVEL"
    .invalidConfiguration (by decide)
  have hc2 := setLevelStr_error_of_parse st "Module1-MISSING-EQUAL-SIGN"
    .invalidConfiguration (by decide)
  refine ⟨fun e he => setLevelStr_error_of_parse st config e he, ?_,
    hc1.1, hc1.2, hc2.1, hc2.2⟩
  intro hne s hsmem hbad
  have herr := parseAssign_error_of_shape s hbad
  have hp : parseConfig config = .error .invalidConfiguration := by
    simp only [parseConfig, if_neg hne]
    exact parseAssigns_error_of_mem _ s hsmem herr
  exact setLevelStr_error_of_parse st config _ hp

/-- C4: For all threshold levels L1 < L2 in verbosity order (NONE < ERROR <
WARN < INFO < DEBUG < TRACE < ALL) and any fixed sequence of log calls, the
set of messages emitted under threshold L1 is a subset of the set emitted
under threshold L2. -/
theorem emission_monotone_in_threshold (t1 t2 : LogLevel)
    (calls : List (LogLevel × String)) (h1 : t1 ≠ .FATAL) (h2 : t2 ≠ .FATAL)
    (hlt : ordinalOf t1 < ordinalOf t2) :
    ∀ c ∈ emittedUnder t1 calls, c ∈ emittedUnder t2 calls := by
  intro c hc
  rw [emittedUnder, List.mem_filter] at hc ⊢
  refine ⟨hc.1, ?_⟩
  have h := hc.2
  rw [isAtLeastAsVerbose] at h ⊢
  simp only [Bool.or_eq_true, decide_eq_true_eq] at h ⊢
  rcases h with h | h
  · exact Or.inl h
  · exact Or.inr (le_trans h (le_of_lt hlt))

/-- C5: For every module and every configured threshold, including threshold
NONE, a message logged at level FATAL is emitted; FATAL never participates in
the threshold comparison, and a message at level L in ERROR..TRACE is emitted
iff L ≤ threshold. -/
theorem fatal_always_emitted (th L : LogLevel)
    (hL : L ∈ [LogLevel.ERROR, .WARN, .INFO, .DEBUG, .TRACE]) :
    isAtLeastAsVerbose .FATAL th = true ∧
    (isAtLeastAsVerbose L th = true ↔ ordinalOf L ≤ ordinalOf th) ∧
    emittedLabels (setLevelPair initRegistry "Module1" .NONE) "Module1"
      = ["FATAL"] := by
  refine ⟨by simp [isAtLeastAsVerbose], ?_, by decide⟩
  fin_cases hL <;> cases th <;> decide

theorem keyVal_unique :
    ∀ t : RuleTable, nodupKeys t → ∀ (k : String) (a b : LogLevel),
      (k, a) ∈ t → (k, b) ∈ t → a = b := by
  intro t
  induction t with
  | nil => intro _ k a b ha; cases ha
  | cons q rest ih =>
    intro hnd k a b ha hb
    simp only [nodupKeys, List.map_cons, List.nodup_cons] at hnd
    rcases List.mem_cons.1 ha with ha1 | ha2 <;> rcases List.mem_cons.1 hb with hb1 | hb2
    · exact congrArg Prod.snd (ha1.trans hb1.symm)
    · exfalso
      apply hnd.1
      have hk : q.1 = k := by rw [← ha1]
      rw [hk]
      exact List.mem_map_of_mem Prod.fst hb2
    · exfalso
      apply hnd.1
      have hk : q.1 = k := by rw [← hb1]
      rw [hk]
      exact List.mem_map_of_mem Prod.fst ha2
    · exact ih hnd.2 k a b ha2 hb2

theorem longestNsMatch_mem :
    ∀ (t : RuleTable) (m : String) (q : String × LogLevel),
      longestNsMatch t m = some q →
      q ∈ t ∧ isNamespaceKey q.1 = true ∧ strIsPrefixOfB q.1 m = true := by
  intro t m
  induction t with
  | nil =>
    intro q h
    simp only [longestNsMatch] at h
    cases h
  | cons p rest ih =>
    intro q h
    simp only [longestNsMatch] at h
    by_cases hcond : (isNamespaceKey p.1 && strIsPrefixOfB p.1 m) = true
    · have hand := hcond
      rw [Bool.and_eq_true] at hand
      rw [if_pos hcond] at h
      split at h
      · injection h with h
        subst h
        exact ⟨List.mem_cons_self _ _, hand⟩
      · rename_i r hrest
        split at h
        · injection h with h
          subst h
          have hr := ih r hrest
          exact ⟨List.mem_cons_of_mem _ hr.1, hr.2⟩
        · injection h with h
          subst h
          exact ⟨List.mem_cons_self _ _, hand⟩
    · rw [if_neg hcond] at h
      have hr := ih q h
      exact ⟨List.mem_cons_of_mem _ hr.1, hr.2⟩

theorem longestNsMatch_spec :
    ∀ t : RuleTable, nodupKeys t → ∀ (m k : String) (l : LogLevel),
      (k, l) ∈ t → isNamespaceKey k = true → strIsPrefixOfB k m = true →
      (∀ q : String × LogLevel, q ∈ t → isNamespaceKey q.1 = true →
        strIsPrefixOfB q.1 m = true → q.1 ≠ k → strLen q.1 < strLen k) →
      longestNsMatch t m = some (k, l) := by
  intro t
  induction t with
  | nil => intro _ m k l hmem; cases hmem
  | cons p rest ih =>
    intro hnd m k l hmem hns hpre hmax
    simp only [nodupKeys, List.map_cons, List.nodup_cons] at hnd
    simp only [longestNsMatch]
    rcases List.mem_cons.1 hmem with heq | hmem2
    · subst heq
      rw [if_pos (by simp only [Bool.and_eq_true]; exact ⟨hns, hpre⟩)]
      split
      · rfl
      · rename_i r hrest
        have hr := longestNsMatch_mem rest m r hrest
        have hrne : r.1 ≠ (k, l).1 := by
          intro hrk
          apply hnd.1
          rw [← hrk]
          exact List.mem_map_of_mem Prod.fst hr.1
        have hlt := hmax r (List.mem_cons_of_mem _ hr.1) hr.2.1 hr.2.2 hrne
        have hlt2 : ¬(strLen (k, l).1 < strLen r.1) := by
          have hkk : strLen (k, l).1 = strLen k := rfl
          omega
        rw [if_neg hlt2]
    · have hns2 : ∀ q : String × LogLevel, q ∈ rest → isNamespaceKey q.1 = true →
          strIsPrefixOfB q.1 m = true → q.1 ≠ k → strLen q.1 < strLen k :=
        fun q hq => hmax q (List.mem_cons_of_mem _ hq)
      have hrest := ih hnd.2 m k l hmem2 hns hpre hns2
      have hpk : p.1 ≠ k := by
        intro hh
        apply hnd.1
        rw [hh]
        exact List.mem_map_of_mem Prod.fst hmem2
      by_cases hcond : (isNamespaceKey p.1 && strIsPrefixOfB p.1 m) = true
      · rw [if_pos hcond]
        have hand := hcond
        rw [Bool.and_eq_true] at hand
        have hlt := hmax p (List.mem_cons_self _ _) hand.1 hand.2 hpk
        split
        · rename_i hnone
          rw [hrest] at hnone
          cases hnone
        · rename_i r hsome
          rw [hrest] at hsome
          injection hsome with hsome
          subst hsome
          rw [if_pos (show strLen p.1 < strLen ((k, l) : String × LogLevel).1 from hlt)]
      · rw [if_neg hcond]
        exact hrest

theorem resolve_exact_of_mem (t : RuleTable) (hnd : nodupKeys t) (m : String)
    (l : LogLevel) (hmem : (m, l) ∈ t) (hex : isNamespaceKey m = false) :
    resolve t m = l := by
  have hsome : ∃ q, t.find? (fun p => !(isNamespaceKey p.1) && p.1 = m) = some q := by
    rw [← Option.isSome_iff_exists, List.find?_isSome]
    exact ⟨(m, l), hmem, by simp [hex]⟩
  obtain ⟨q, hq⟩ := hsome
  have hpq := List.find?_some hq
  have hqmem := List.mem_of_find?_eq_some hq
  obtain ⟨q1, q2⟩ := q
  simp only [Bool.and_eq_true, Bool.not_eq_true', decide_eq_true_eq] at hpq
  simp only [resolve, hq]
  rcases hpq with ⟨_, h1⟩
  subst h1
  exact keyVal_unique t hnd q1 q2 l hqmem hmem

theorem resolve_no_match (t : RuleTable) (m : String)
    (h : ∀ p : String × LogLevel, p ∈ t → keyMatches p.1 m = false) :
    resolve t m = .NONE := by
  have hf : t.find? (fun p => !(isNamespaceKey p.1) && p.1 = m) = none := by
    rw [List.find?_eq_none]
    intro p hp
    have hkm := h p hp
    simp only [Bool.and_eq_true, Bool.not_eq_true', decide_eq_true_eq, not_and]
    intro hns hpm
    rw [keyMatches, if_neg (by rw [hns]; exact Bool.false_ne_true)] at hkm
    rw [hpm] at hkm
    simp at hkm
  have hl : longestNsMatch t m = none := by
    cases hlm : longestNsMatch t m with
    | none => rfl
    | some q =>
      have hq := longestNsMatch_mem t m q hlm
      have hkm := h q hq.1
      rw [keyMatches, if_pos hq.2.1, hq.2.2] at hkm
      cases hkm
  simp only [resolve, hf, hl]

/-- C1: For every module name, resolve returns the level of the exact key
equal to the name if one exists; otherwise the level of the longest namespace
key (including the root "") that prefixes the name; otherwise the built-in
default, so that under rules "*=FATAL:fm.a.*=ERROR:fm.a.b=INFO" module fm.a.b
emits INFO,WARNING,ERROR,FATAL; module fm.a.b.c emits ERROR,FATAL; and module
fm.b emits only FATAL. -/
theorem resolve_longest_match (t : RuleTable) (m : String) (hnd : nodupKeys t) :
    (∀ l : LogLevel, (m, l) ∈ t → isNamespaceKey m = false → resolve t m = l) ∧
    (∀ (k : String) (l : LogLevel),
      (∀ p : String × LogLevel, p ∈ t → isNamespaceKey p.1 = false → p.1 ≠ m) →
      (k, l) ∈ t → isNamespaceKey k = true → strIsPrefixOfB k m = true →
      (∀ p : String × LogLevel, p ∈ t → isNamespaceKey p.1 = true →
        strIsPrefixOfB p.1 m = true → p.1 ≠ k → strLen p.1 < strLen k) →
      resolve t m = l) ∧
    ((∀ p : String × LogLevel, p ∈ t → keyMatches p.1 m = false) →
      resolve t m = .NONE) ∧
    (setLevelStr initRegistry "*=FATAL:fm.a.*=ERROR:fm.a.b=INFO").map
        (fun st => (emittedLabels st "fm.a.b", emittedLabels st "fm.a.b.c",
          emittedLabels st "fm.b"))
      = .ok (["INFO", "WARNING", "ERROR", "FATAL"], ["ERROR", "FATAL"],
          ["FATAL"]) := by
  refine ⟨fun l hmem hex => resolve_exact_of_mem t hnd m l hmem hex, ?_,
    resolve_no_match t m, by decide⟩
  intro k l hnoex hmem hns hpre hmax
  have hf : t.find? (fun p => !(isNamespaceKey p.1) && p.1 = m) = none := by
    rw [List.find?_eq_none]
    intro p hp
    simp only [Bool.and_eq_true, Bool.not_eq_true', decide_eq_true_eq, not_and]
    exact hnoex p hp
  have hlong := longestNsMatch_spec t hnd m k l hmem hns hpre hmax
  simp only [resolve, hf, hlong]

theorem recacheAll_consistent (s : RegistryState) : cacheConsistent (recacheAll s) := by
  intro l hl
  simp only [recacheAll, List.mem_map] at hl
  obtain ⟨a, _, rfl⟩ := hl
  rfl

/-- C6: After every completed Registry operation (setLevel, resetLevels,
Logger creation, Logger removal), every live Logger's cached effective
threshold equals resolve(moduleName) against the current rule table; in
particular a Logger created after a rule targeting its name was set is
immediately filtered per that rule, with no missed propagation. -/
theorem logger_cache_consistent (st : RegistryState) (hc : cacheConsistent st)
    (name p config : String) (lvl : LogLevel) (i : Nat) :
    cacheConsistent (setLevelPair st p lvl) ∧
    cacheConsistent (resetLevels st) ∧
    (∀ st2, setLevelStr st config = .ok st2 → cacheConsistent st2) ∧
    cacheConsistent (addLogger st name) ∧
    cacheConsistent (removeLogger st i) ∧
    (addLogger st name).loggers.getLast? = some (name, resolve st.rules name) ∧
    (addLogger (setLevelPair initRegistry "Module3" .DEBUG) "Module3").loggers
      = [("Module3", .DEBUG)] := by
  refine ⟨recacheAll_consistent _, recacheAll_consistent _, ?_, ?_, ?_,
    List.getLast?_concat _, by decide⟩
  · intro st2 hok
    cases hp : parseConfig config with
    | error e =>
      rw [setLevelStr, hp] at hok
      cases hok
    | ok assigns =>
      rw [setLevelStr, hp] at hok
      injection hok with hok
      rw [← hok]
      exact recacheAll_consistent _
  · intro l hl
    rcases List.mem_append.1 hl with hmem | hnew
    · exact hc l hmem
    · rw [List.mem_singleton.1 hnew]
      rfl
  · intro l hl
    exact hc l (List.mem_of_mem_eraseIdx hl)

theorem data_mk (l : List Char) : (String.mk l).data = l := rfl

theorem digitChar_ne_newline (n : Nat) : digitChar n ≠ '\n' := by
  unfold digitChar
  repeat' split
  all_goals decide

theorem natDigitsAux_not_newline (fuel : Nat) :
    ∀ n, '\n' ∉ natDigitsAux fuel n := by
  induction fuel with
  | zero => intro n h; cases h
  | succ f ih =>
    intro n h
    simp only [natDigitsAux] at h
    split at h
    · exact digitChar_ne_newline n (List.mem_singleton.1 h).symm
    · rcases List.mem_append.1 h with h | h
      · exact ih _ h
      · exact digitChar_ne_newline _ (List.mem_singleton.1 h).symm

theorem formatTimestamp_no_newline (sec usec : Nat) :
    '\n' ∉ (formatTimestamp sec usec).data := by
  simp only [formatTimestamp, natToStr, padZeros6, String.data_append, data_mk]
  intro h
  rcases List.mem_append.1 h with h | h
  · rcases List.mem_append.1 h with h | h
    · exact natDigitsAux_not_newline _ _ h
    · exact absurd h (by decide)
  · rcases List.mem_append.1 h with h | h
    · exact absurd (List.mem_replicate.1 h).2 (by decide)
    · exact natDigitsAux_not_newline _ _ h

/-- C7: Every emitted log call produces exactly one line of the form
"<seconds>.<microseconds> <LEVELNAME>: [<moduleName>] <message>\n", where the
timestamp comes from the injectable clock and <LEVELNAME> is one of the fixed
literals TRACE, DEBUG, INFO, WARNING, ERROR, FATAL — in particular a message
at level WARN carries the wire label WARNING. -/
theorem emission_format (sec usec : Nat) (name msg : String) (lvl : LogLevel)
    (hlvl : lvl ∈ allMessageLevels) (hname : '\n' ∉ name.data)
    (hmsg : '\n' ∉ msg.data) :
    levelLabel lvl ∈ ["TRACE", "DEBUG", "INFO", "WARNING", "ERROR", "FATAL"] ∧
    levelLabel .WARN = "WARNING" ∧
    emitLine sec usec lvl name msg =
      formatTimestamp sec usec ++ " " ++ levelLabel lvl ++ ": [" ++ name ++
        "] " ++ msg ++ "\n" ∧
    (emitLine sec usec lvl name msg).data.count '\n' = 1 ∧
    emitLine 1468108800 311239 .WARN "Module1" "warn1"
      = "1468108800.311239 WARNING: [Module1] warn1\n" := by
  have hts0 : (formatTimestamp sec usec).data.count '\n' = 0 :=
    List.count_eq_zero.2 (formatTimestamp_no_newline sec usec)
  have hlab : '\n' ∉ (levelLabel lvl).data := by
    fin_cases hlvl <;> decide
  have h4 : (emitLine sec usec lvl name msg).data.count '\n' = 1 := by
    simp only [emitLine, String.data_append, List.count_append, hts0,
      List.count_eq_zero.2 hname, List.count_eq_zero.2 hmsg,
      List.count_eq_zero.2 hlab]
    decide
  exact ⟨by fin_cases hlvl <;> decide, rfl, rfl, h4, by decide⟩

/-- C8: For every module and every sequence of log calls, a configured
threshold of FATAL emits exactly the same messages as a configured threshold
of NONE: only the FATAL-level messages. -/
theorem fatal_threshold_equals_none (calls : List (LogLevel × String))
    (hmsg : ∀ c ∈ calls, isMessageLevel c.1 = true) :
    emittedUnder .FATAL calls = emittedUnder .NONE calls ∧
    emittedUnder .FATAL calls = calls.filter (fun c => c.1 == .FATAL) := by
  constructor <;>
  · rw [emittedUnder]
    apply List.filter_congr
    intro c hc
    have hm := hmsg c hc
    revert hm
    cases c.1 <;> decide

/-! ## Witnesses -/

theorem resolve_longest_match_witness :
    resolve [("", LogLevel.FATAL), ("fm.a.", LogLevel.ERROR),
        ("fm.a.b", LogLevel.INFO)] "fm.a.b" = LogLevel.INFO :=
  (resolve_longest_match
      [("", LogLevel.FATAL), ("fm.a.", LogLevel.ERROR), ("fm.a.b", LogLevel.INFO)]
      "fm.a.b" (by unfold nodupKeys; decide)).1 LogLevel.INFO (by decide) (by decide)

theorem applyRule_subsumption_frame_witness :
    ("fm.", LogLevel.INFO) ∈ applyRule
      [("", LogLevel.FATAL), ("fm.FilterModule", LogLevel.DEBUG)]
      "fm." LogLevel.INFO :=
  (applyRule_subsumption_frame
    [("", LogLevel.FATAL), ("fm.FilterModule", LogLevel.DEBUG)]
    "fm." LogLevel.INFO (by decide)).1

theorem setLevel_malformed_atomic_witness :
    setLevelStr initRegistry "Module1-MISSING-EQUAL-SIGN"
        = .error .invalidConfiguration ∧
    trySetLevel initRegistry "Module1=INVALID-LEVEL" = initRegistry :=
  ⟨((setLevel_malformed_atomic initRegistry "Module1-MISSING-EQUAL-SIGN").1
      .invalidConfiguration (by decide)).1,
    (setLevel_malformed_atomic initRegistry "Module1=INVALID-LEVEL").2.2.2.1⟩

theorem emission_monotone_in_threshold_witness :
    (LogLevel.ERROR, "e") ∈ emittedUnder .INFO
      [(LogLevel.ERROR, "e"), (LogLevel.TRACE, "t")] :=
  emission_monotone_in_threshold .ERROR .INFO
    [(LogLevel.ERROR, "e"), (LogLevel.TRACE, "t")]
    (by decide) (by decide) (by decide) (LogLevel.ERROR, "e") (by decide)

theorem fatal_always_emitted_witness :
    isAtLeastAsVerbose .FATAL .NONE = true :=
  (fatal_always_emitted .NONE .ERROR (by decide)).1

theorem logger_cache_consistent_witness :
    (addLogger (setLevelPair initRegistry "Module3" .DEBUG) "Module3").loggers
      = [("Module3", LogLevel.DEBUG)] :=
  (logger_cache_consistent initRegistry (by intro l hl; cases hl)
    "Module3" "fm." "cfg" .DEBUG 0).2.2.2.2.2.2

theorem emission_format_witness :
    emitLine 1468108800 311239 .WARN "Module1" "warn1"
      = "1468108800.311239 WARNING: [Module1] warn1\n" :=
  (emission_format 1468108800 311239 "Module1" "warn1" .WARN (by decide)
    (by decide) (by decide)).2.2.2.2

theorem fatal_threshold_equals_none_witness :
    emittedUnder .FATAL [(LogLevel.ERROR, "e"), (LogLevel.FATAL, "f")]
      = emittedUnder .NONE [(LogLevel.ERROR, "e"), (LogLevel.FATAL, "f")] :=
  (fatal_threshold_equals_none [(LogLevel.ERROR, "e"), (LogLevel.FATAL, "f")]
    (by decide)).1

end NdnCxx
